import Mathlib

/-!
# DomKit (v1.1.0) — shallow embedding and verification

A shallow embedding of the DomKit renderer core: the virtual-node model,
the equality oracle `isNodeChanged`, the host patch applier `updateProps`,
the host materializer `createDomElement`, the reconciler `updateElement`,
the render driver `proceedWithRendering`, the state store (`createState`
internals: `processQueue`, `debouncedSetState`, the synchronous `setState`)
and the component loader (`loadComponent`, `getComponent`).

JavaScript runtime values are modelled by `JSVal`; objects and functions
carry a `Nat` reference identity because JavaScript compares them with
`===` by reference.  Host mutations are recorded as a trace of `HostOp`
values; code paths that throw a `TypeError` in JavaScript are modelled
with `Except String`.
-/

set_option maxRecDepth 4000

namespace DomKit

/-- JavaScript values as they occur in DomKit props, styles and state
records.  `vFun` and `vObj` carry a reference identity. -/
inductive JSVal : Type where
  | vStr (s : String)
  | vNum (n : Int)
  | vBool (b : Bool)
  | vNull
  | vUndefined
  | vFun (id : Nat)
  | vObj (id : Nat) (fields : List (String × JSVal))

/-- JavaScript truthiness (`!v` is `!truthy v`).  `NaN` does not arise in
the integer model. -/
def truthy : JSVal → Bool
  | .vStr s => s != ""
  | .vNum n => n != 0
  | .vBool b => b
  | .vNull => false
  | .vUndefined => false
  | .vFun _ => true
  | .vObj _ _ => true

/-- JavaScript strict equality `===`: primitives by value, objects and
functions by reference identity. -/
def jsEq : JSVal → JSVal → Bool
  | .vStr a, .vStr b => a == b
  | .vNum a, .vNum b => a == b
  | .vBool a, .vBool b => a == b
  | .vNull, .vNull => true
  | .vUndefined, .vUndefined => true
  | .vFun i, .vFun j => i == j
  | .vObj i _, .vObj j _ => i == j
  | _, _ => false

/-- JavaScript `typeof`.  Note `typeof null === "object"`. -/
def jsTypeof : JSVal → String
  | .vStr _ => "string"
  | .vNum _ => "number"
  | .vBool _ => "boolean"
  | .vNull => "object"
  | .vUndefined => "undefined"
  | .vFun _ => "function"
  | .vObj _ _ => "object"

/-- `typeof v === "object"` (true for objects and for `null`). -/
def typeofObject (v : JSVal) : Bool := jsTypeof v == "object"

/-- `name.startsWith("on")` — the event-prop naming convention,
implemented over the character list so that it reduces in the kernel. -/
def startsWithOn (name : String) : Bool :=
  match name.data with
  | 'o' :: 'n' :: _ => true
  | _ => false

/-- `name.substring(2).toLowerCase()` — the event name of an `on*`
prop, implemented over the character list. -/
def jsEventName (name : String) : String :=
  String.mk ((name.data.drop 2).map Char.toLower)

/-- Property read on a props/style object represented as an association
list: absent keys read as `undefined`. -/
def jsLookup : List (String × JSVal) → String → JSVal
  | [], _ => .vUndefined
  | (k, v) :: rest, name => if k = name then v else jsLookup rest name

/-- `Object.keys`: own enumerable property names.  Throws a `TypeError`
on `null` and `undefined`, lists character indices of a string, and is
empty on the remaining primitives. -/
def jsKeys : JSVal → Except String (List String)
  | .vObj _ f => .ok (f.map Prod.fst)
  | .vStr s => .ok ((List.range s.length).map (fun i => toString i))
  | .vNull => .error "TypeError: Cannot convert undefined or null to object"
  | .vUndefined => .error "TypeError: Cannot convert undefined or null to object"
  | _ => .ok []

/-- Computed member access `v[prop]`: throws on `null`/`undefined`,
indexes into strings, reads fields of objects, and yields `undefined`
for the remaining primitives. -/
def jsIndex : JSVal → String → Except String JSVal
  | .vNull, _ => .error "TypeError: Cannot read properties of null"
  | .vUndefined, _ => .error "TypeError: Cannot read properties of undefined"
  | .vObj _ f, prop => .ok (jsLookup f prop)
  | .vStr s, prop =>
    .ok (match prop.toNat? with
      | some i =>
        match s.data.get? i with
        | some c => .vStr (String.mk [c])
        | none => .vUndefined
      | none => .vUndefined)
  | _, _ => .ok .vUndefined

/-- Assignment `o[k] = v` on an object represented as an association
list: replaces the value in place if the key exists, appends otherwise
(JavaScript insertion order). -/
def objSet (o : List (String × JSVal)) (k : String) (v : JSVal) : List (String × JSVal) :=
  if o.any (fun p => p.1 == k) then
    o.map (fun p => if p.1 = k then (k, v) else p)
  else o ++ [(k, v)]

/-- The own enumerable entries `Object.assign` copies from a source:
fields of an object, indexed characters of a string, nothing from the
other primitives (`null` and `undefined` sources are skipped). -/
def jsAssignSource : JSVal → List (String × JSVal)
  | .vObj _ f => f
  | .vStr s => s.data.enum.map (fun p => (toString p.1, JSVal.vStr (String.mk [p.2])))
  | _ => []

/-- `Object.assign({}, ...sources)`. -/
def objAssignAll (sources : List JSVal) : List (String × JSVal) :=
  sources.foldl (fun acc s => (jsAssignSource s).foldl (fun a p => objSet a p.1 p.2) acc) []

/-! ## Node model

Virtual nodes as produced by `h`: text/number leaves and element nodes
`{ tag, props, children }`.  Component references are resolved to plain
elements before reconciliation, so the fragment verified here only
needs string tags. -/

mutual
inductive VNode : Type where
  | text (s : String)
  | num (n : Int)
  | elem (tag : String) (props : List (String × JSVal)) (children : VNodeList)

/-- The child list of a virtual node.  A dedicated mutual type (rather
than `List VNode`) so that every function on trees is structurally
recursive and reduces inside the kernel. -/
inductive VNodeList : Type where
  | nil
  | cons (head : VNode) (tail : VNodeList)
end

/-- Build a `VNodeList` from a `List VNode` (notation convenience). -/
def vlist : List VNode → VNodeList
  | [] => .nil
  | v :: vs => .cons v (vlist vs)

/-- Membership in a `VNodeList`. -/
def VNodeList.memV (c : VNode) : VNodeList → Prop
  | .nil => False
  | .cons v vs => c = v ∨ VNodeList.memV c vs

mutual
/-- Size of a virtual node (used only as a fuel bound). -/
def vsizeN : VNode → Nat
  | .text _ => 1
  | .num _ => 1
  | .elem _ _ cs => 1 + vsizeL cs

def vsizeL : VNodeList → Nat
  | .nil => 0
  | .cons c cs => vsizeN c + vsizeL cs
end

/-- Size of a possibly-null virtual node. -/
def sizeOV : Option VNode → Nat
  | none => 0
  | some v => vsizeN v

/-- JavaScript truthiness of a vnode value (`""` and `0` are falsy). -/
def vTruthy : VNode → Bool
  | .text s => s != ""
  | .num n => n != 0
  | .elem _ _ _ => true

/-- Truthiness of a possibly-null vnode (`!node`). -/
def truthyN : Option VNode → Bool
  | none => false
  | some v => vTruthy v

/-- `typeof node` for a vnode value. -/
def nodeTypeof : VNode → String
  | .text _ => "string"
  | .num _ => "number"
  | .elem _ _ _ => "object"

/-- `node.props` for element nodes, empty for leaves (where the
JavaScript value has no `props` property). -/
def vProps : VNode → List (String × JSVal)
  | .elem _ ps _ => ps
  | _ => []

/-- `node.children`, empty for leaves. -/
def vChildren : VNode → VNodeList
  | .elem _ _ cs => cs
  | _ => .nil

/-- `node.props?.key`: `undefined` for leaves (a primitive has no
`props`), the `key` prop (or `undefined`) for elements. -/
def nodeKey : VNode → JSVal
  | .elem _ props _ => jsLookup props "key"
  | _ => .vUndefined

/-- `node.props?.key` on a possibly-null argument.  On `null` (or
`undefined`) the member access `node.props` itself throws, because the
optional chaining only guards the `.key` step. -/
def nodeKeyE : Option VNode → Except String JSVal
  | none => .error "TypeError: Cannot read properties of null"
  | some v => .ok (nodeKey v)

/-- Is `node` a text/number leaf (`typeof` string or number)? -/
def isPrimitiveNode : VNode → Bool
  | .text _ => true
  | .num _ => true
  | .elem _ _ _ => false

/-! ## Equality oracle (`isNodeChanged`, part_001 lines 256-298) -/

/-- The per-prop comparison loop of `isNodeChanged`
(`for (const name of n1Props) ...`), specialised to one style key list:
`node1.props[name][key] !== node2.props[name][key]`. -/
def styleKeysDiffer (v1 v2 : JSVal) : List String → Except String Bool
  | [] => .ok false
  | k :: ks =>
    match jsIndex v1 k with
    | .error e => .error e
    | .ok a =>
      match jsIndex v2 k with
      | .error e => .error e
      | .ok b => if jsEq a b = false then .ok true else styleKeysDiffer v1 v2 ks

/-- The prop-name loop of `isNodeChanged`: event-prefixed names are
skipped, `style` objects are compared per sub-key, everything else by
strict equality. -/
def propsDiffer (p1 p2 : List (String × JSVal)) : List String → Except String Bool
  | [] => .ok false
  | name :: rest =>
    if startsWithOn name then propsDiffer p1 p2 rest
    else
      let v1 := jsLookup p1 name
      let v2 := jsLookup p2 name
      if name == "style" && typeofObject v1 && typeofObject v2 then
        match jsKeys v1 with
        | .error e => .error e
        | .ok k1 =>
          match jsKeys v2 with
          | .error e => .error e
          | .ok k2 =>
            if (k1.length == k2.length) = false then .ok true
            else
              match styleKeysDiffer v1 v2 k1 with
              | .error e => .error e
              | .ok true => .ok true
              | .ok false => propsDiffer p1 p2 rest
      else if jsEq v1 v2 = false then .ok true
      else propsDiffer p1 p2 rest

/-- Lines 259-297 of `isNodeChanged`: everything after the key
comparison.  The null guard here is dead code in practice, because a
null argument already threw inside the key comparison on line 257. -/
def isNodeRest (n1 n2 : Option VNode) : Except String Bool :=
  if n1.isNone || n2.isNone then .ok (!(n1.isNone && n2.isNone))
  else
    match n1, n2 with
    | some v1, some v2 =>
      if (nodeTypeof v1 == nodeTypeof v2) = false then .ok true
      else
        match v1, v2 with
        | .text a, .text b => .ok (a != b)
        | .num a, .num b => .ok (a != b)
        | .elem t1 p1 _, .elem t2 p2 _ =>
          if t1 == "" || t2 == "" then .ok true
          else if (t1 == t2) = false then .ok true
          else if (p1.length == p2.length) = false then .ok true
          else propsDiffer p1 p2 (p1.map Prod.fst)
        | _, _ => .ok true
    | _, _ => .ok true

/-- `isNodeChanged(node1, node2)` (lines 256-298).  The key comparison
on line 257 runs first; it evaluates `node1.props` and `node2.props`,
which throws a `TypeError` when the corresponding argument is
null/undefined. -/
def isNodeChanged (n1 n2 : Option VNode) : Except String Bool :=
  match nodeKeyE n1 with
  | .error e => .error e
  | .ok k1 =>
    match nodeKeyE n2 with
    | .error e => .error e
    | .ok k2 =>
      if jsEq k1 k2 = false then .ok true
      else isNodeRest n1 n2

/-! ## Host surface model

A host node is a live display node: a text node, or an element with its
attributes, its `_events` side table of bound listeners, its inline
style store and its child list.  Host mutations are recorded as
`HostOp` values; every op carries the path (list of child indices from
the render root) of the node it targets (for child operations, of the
parent whose child list changes). -/

inductive HNode : Type where
  | text (value : String)
  | elem (tag : String) (attrs : List (String × JSVal)) (events : List (String × JSVal))
         (style : List (String × JSVal)) (children : List HNode)

inductive HostOp : Type where
  | setAttr (path : List Nat) (name : String) (value : JSVal)
  | removeAttr (path : List Nat) (name : String)
  | addListener (path : List Nat) (event : String) (handler : JSVal)
  | removeListener (path : List Nat) (event : String) (handler : JSVal)
  | setStyle (path : List Nat) (prop : String) (value : JSVal)
  | appendChild (path : List Nat) (node : HNode)
  | removeChild (path : List Nat) (index : Nat)
  | replaceChild (path : List Nat) (index : Nat) (node : HNode)
  | callRef (path : List Nat) (handler : JSVal)

/-- `node.childNodes` (empty for text nodes). -/
def hChildren : HNode → List HNode
  | .text _ => []
  | .elem _ _ _ _ cs => cs

/-- Replace the child list of a host element (text nodes unchanged). -/
def hSetChildren : HNode → List HNode → HNode
  | .text v, _ => .text v
  | .elem t a e s _, cs => .elem t a e s cs

/-- `parent.appendChild(c)`; appending to a text node throws in a real
host, so it yields `none` here. -/
def appendHChild (h : HNode) (c : HNode) : Option HNode :=
  match h with
  | .text _ => none
  | .elem t a e s cs => some (.elem t a e s (cs ++ [c]))

/-- `parent.removeChild(parent.childNodes[i])` once `i` is in range. -/
def hRemoveChild (h : HNode) (i : Nat) : HNode :=
  hSetChildren h ((hChildren h).eraseIdx i)

/-- Overwrite child `i` (used both for `replaceChild` and for writing a
recursively updated child back into its parent). -/
def hSetChild (h : HNode) (i : Nat) (c : HNode) : HNode :=
  hSetChildren h ((hChildren h).set i c)

/-! ## Host patch applier (`updateProps`, part_001 lines 300-368) -/

/-- First loop of `updateProps`: unbind every old event listener whose
prop is absent or changed in `newProps`, clearing the `_events` record.
Returns the updated `_events` table and the emitted host ops. -/
def removeOldListeners (events : List (String × JSVal))
    (newProps oldProps : List (String × JSVal)) (path : List Nat) :
    List String → List (String × JSVal) × List HostOp
  | [] => (events, [])
  | name :: rest =>
    if startsWithOn name &&
        (!truthy (jsLookup newProps name) ||
          !jsEq (jsLookup oldProps name) (jsLookup newProps name)) then
      let eventName := jsEventName name
      let h := jsLookup events eventName
      if truthy h then
        let events1 := events.filter (fun p => p.1 != eventName)
        let (evF, opsF) := removeOldListeners events1 newProps oldProps path rest
        (evF, HostOp.removeListener path eventName h :: opsF)
      else removeOldListeners events newProps oldProps path rest
    else removeOldListeners events newProps oldProps path rest

/-- `Object.keys(oldStyle)` loop: clear every style sub-property whose
new value is falsy.  Accessing `newStyle[prop]` throws when the new
style value is `null`. -/
def styleRemoveLoop (style : List (String × JSVal)) (newStyle : JSVal) (path : List Nat) :
    List String → Except String (List (String × JSVal) × List HostOp)
  | [] => .ok (style, [])
  | p :: ps =>
    match jsIndex newStyle p with
    | .error e => .error e
    | .ok v =>
      if truthy v then styleRemoveLoop style newStyle path ps
      else
        match styleRemoveLoop (objSet style p (JSVal.vStr "")) newStyle path ps with
        | .error e => .error e
        | .ok (sF, opsF) => .ok (sF, HostOp.setStyle path p (JSVal.vStr "") :: opsF)

/-- `Object.keys(newStyle)` loop: write every style sub-property whose
value differs from the old style value. -/
def styleAddLoop (style : List (String × JSVal)) (oldStyle newStyle : JSVal) (path : List Nat) :
    List String → Except String (List (String × JSVal) × List HostOp)
  | [] => .ok (style, [])
  | p :: ps =>
    match jsIndex oldStyle p with
    | .error e => .error e
    | .ok ov =>
      match jsIndex newStyle p with
      | .error e => .error e
      | .ok nv =>
        if jsEq ov nv then styleAddLoop style oldStyle newStyle path ps
        else
          match styleAddLoop (objSet style p nv) oldStyle newStyle path ps with
          | .error e => .error e
          | .ok (sF, opsF) => .ok (sF, HostOp.setStyle path p nv :: opsF)

/-- Second loop of `updateProps` (`Object.keys(newProps).forEach`):
equal non-event values are skipped, event props are unconditionally
re-bound, `style` objects are sub-key diffed, `className` maps to the
`class` attribute and everything else becomes `setAttribute`. -/
def applyNewProps (attrs events style : List (String × JSVal))
    (newProps oldProps : List (String × JSVal)) (path : List Nat) :
    List String →
    Except String (List (String × JSVal) × List (String × JSVal) × List (String × JSVal) × List HostOp)
  | [] => .ok (attrs, events, style, [])
  | name :: rest =>
    let nv := jsLookup newProps name
    let ov := jsLookup oldProps name
    if !startsWithOn name && jsEq ov nv then
      applyNewProps attrs events style newProps oldProps path rest
    else if startsWithOn name then
      let eventName := jsEventName name
      let existing := jsLookup events eventName
      let removeOps :=
        if truthy existing then [HostOp.removeListener path eventName existing] else []
      match applyNewProps attrs (objSet events eventName nv) style newProps oldProps path rest with
      | .error e => .error e
      | .ok (a2, e2, s2, ops) =>
        .ok (a2, e2, s2, removeOps ++ [HostOp.addListener path eventName nv] ++ ops)
    else if name == "style" && typeofObject nv then
      let oldStyleV := if truthy ov then ov else JSVal.vObj 0 []
      match jsKeys oldStyleV with
      | .error e => .error e
      | .ok ok1 =>
        match styleRemoveLoop style nv path ok1 with
        | .error e => .error e
        | .ok (style1, opsA) =>
          match jsKeys nv with
          | .error e => .error e
          | .ok nk =>
            match styleAddLoop style1 oldStyleV nv path nk with
            | .error e => .error e
            | .ok (style2, opsB) =>
              match applyNewProps attrs events style2 newProps oldProps path rest with
              | .error e => .error e
              | .ok (a2, e2, s3, ops) => .ok (a2, e2, s3, opsA ++ opsB ++ ops)
    else if name == "className" then
      match applyNewProps (objSet attrs "class" nv) events style newProps oldProps path rest with
      | .error e => .error e
      | .ok (a2, e2, s2, ops) => .ok (a2, e2, s2, HostOp.setAttr path "class" nv :: ops)
    else
      match applyNewProps (objSet attrs name nv) events style newProps oldProps path rest with
      | .error e => .error e
      | .ok (a2, e2, s2, ops) => .ok (a2, e2, s2, HostOp.setAttr path name nv :: ops)

/-- Final loop of `updateProps`: `removeAttribute` for every old prop
name whose value in `newProps` is falsy (absence reads as `undefined`),
excluding event and style names. -/
def removeStaleAttrs (attrs : List (String × JSVal))
    (newProps : List (String × JSVal)) (path : List Nat) :
    List String → List (String × JSVal) × List HostOp
  | [] => (attrs, [])
  | name :: rest =>
    if !truthy (jsLookup newProps name) && !startsWithOn name && name != "style" then
      let attrs1 := attrs.filter (fun p => p.1 != name)
      let (aF, opsF) := removeStaleAttrs attrs1 newProps path rest
      (aF, HostOp.removeAttr path name :: opsF)
    else removeStaleAttrs attrs newProps path rest

/-- `updateProps(element, newProps, oldProps)`.  A missing or non-element
host node is rejected with a diagnostic and no mutation.  Otherwise: the
`ref` callback fires, old listeners are unbound, new props are applied,
and stale attributes are removed, in source order. -/
def updateProps (elOpt : Option HNode) (newProps oldProps : List (String × JSVal))
    (path : List Nat) : Except String (Option HNode × List HostOp) :=
  match elOpt with
  | some (HNode.elem tag attrs events style children) =>
    let refOps :=
      let r := jsLookup newProps "ref"
      if truthy r && jsTypeof r == "function" then [HostOp.callRef path r] else []
    let (events1, ops1) :=
      removeOldListeners events newProps oldProps path (oldProps.map Prod.fst)
    match applyNewProps attrs events1 style newProps oldProps path (newProps.map Prod.fst) with
    | .error e => .error e
    | .ok (attrs2, events2, style2, ops2) =>
      let (attrs3, ops3) := removeStaleAttrs attrs2 newProps path (oldProps.map Prod.fst)
      .ok (some (HNode.elem tag attrs3 events2 style2 children),
           refOps ++ ops1 ++ ops2 ++ ops3)
  | other => .ok (other, [])

/-! ## Materializer (`createDomElement`, part_001 lines 433-487) -/

mutual
/-- `createDomElement` on a proper vnode.  Mutations applied to the
freshly created, still detached element are not host-surface mutations,
so the trace of the initial `updateProps` run is discarded; if that run
throws, the surrounding try/catch degrades the node to an empty text
node.  (Namespaced creation for `xmlns` props builds the same model
element.) -/
def createDomElementV : VNode → HNode
  | .text s => .text s
  | .num n => .text (toString n)
  | .elem tag props children =>
    match updateProps (some (HNode.elem tag [] [] [] [])) props [] [] with
    | .ok (some el, _) => hSetChildren el (createChildren children)
    | _ => .text ""

/-- The child-materialization loop of `createDomElement` (children are
all non-null in the model, matching the `h` constructor's filtering). -/
def createChildren : VNodeList → List HNode
  | .nil => []
  | .cons c cs => createDomElementV c :: createChildren cs
end

/-- `createDomElement(vnode)`: a null/undefined vnode becomes an empty
text node (line 436). -/
def createDomElement : Option VNode → HNode
  | none => .text ""
  | some v => createDomElementV v

/-! ## Reconciler (`updateElement`, part_001 lines 371-430)

`updateElement` recurses through the children of both trees at once,
which is not structural in either argument alone, so the recursion is
driven by a fuel argument; the wrapper `updateElement` supplies fuel
strictly larger than the combined tree sizes, which always suffices
because every recursive call descends into a child of at least one
side.  Running out of fuel yields `none`; all theorems below either
quantify over sufficient fuel or use the wrapper. -/

/-- One result of a reconciliation step: `none` only on fuel
exhaustion, otherwise the updated parent (if still valid) and the host
mutation trace, or the JavaScript exception that aborted the pass. -/
abbrev ElemResult := Option (Except String (Option HNode × List HostOp))

/-- Pairs `(newChildren[i] ?? null, oldChildren[i] ?? null)` for
`i < max(newLength, oldLength)` — the index-aligned child walk of
lines 419-426. -/
def missingNewPairs : VNodeList → List (Option VNode × Option VNode)
  | .nil => []
  | .cons o os => (none, some o) :: missingNewPairs os

def zipPad : VNodeList → VNodeList → List (Option VNode × Option VNode)
  | .nil, os => missingNewPairs os
  | .cons n ns, .nil => (some n, none) :: zipPad ns .nil
  | .cons n ns, .cons o os => (some n, some o) :: zipPad ns os

/-- The child loop of `updateElement`: recurse per index position on
the (live, threaded) host child, accumulating the trace.  `recurse` is
the reconciler itself at one less fuel. -/
def runPairs (recurse : Option HNode → Option VNode → Option VNode → Nat → List Nat → ElemResult) :
    Option HNode → List (Option VNode × Option VNode) → Nat → List Nat → ElemResult
  | elOpt, [], _, _ => some (.ok (elOpt, []))
  | elOpt, (nA, oA) :: rest, i, path =>
    match recurse elOpt nA oA i path with
    | some (.ok (e1, t1)) =>
      match runPairs recurse e1 rest (i + 1) path with
      | some (.ok (e2, t2)) => some (.ok (e2, t1 ++ t2))
      | some (.error e) => some (.error e)
      | none => none
    | some (.error e) => some (.error e)
    | none => none

/-- `updateElement(parent, newNode, oldNode, index)` with explicit
fuel.  `path` is the position of `parent` under the render root (used
only to address the emitted host ops).  A falsy `oldNode` appends a
fresh node; a falsy `newNode` removes `parent.childNodes[index]`
(throwing a `TypeError` when that child does not exist, as
`removeChild(undefined)` does); a changed node is replaced by a fresh
materialization; an unchanged primitive is left alone; otherwise props
are synced on the existing child and the children are walked
index-aligned.  `_customRender` hooks are never present on modelled
vnodes, so the post-render callback is null throughout. -/
def updateElementFuel : Nat → Option HNode → Option VNode → Option VNode → Nat → List Nat → ElemResult
  | 0, _, _, _, _, _ => none
  | _ + 1, none, _, _, _, _ => some (.ok (none, []))
  | fuel + 1, some parent, newN, oldN, index, path =>
    if truthyN oldN = false then
      match appendHChild parent (createDomElement newN) with
      | some parent1 => some (.ok (some parent1, [.appendChild path (createDomElement newN)]))
      | none => some (.error "HierarchyRequestError: appendChild on a text node")
    else if truthyN newN = false then
      if index < (hChildren parent).length then
        some (.ok (some (hRemoveChild parent index), [.removeChild path index]))
      else some (.error "TypeError: parameter 1 is not of type Node")
    else
      match newN, oldN with
      | some nv, some ov =>
        match isNodeChanged (some nv) (some ov) with
        | .error e => some (.error e)
        | .ok true =>
          if index < (hChildren parent).length then
            some (.ok (some (hSetChild parent index (createDomElementV nv)),
                       [.replaceChild path index (createDomElementV nv)]))
          else some (.error "TypeError: parameter 1 is not of type Node")
        | .ok false =>
          if isPrimitiveNode nv then some (.ok (some parent, []))
          else
            match updateProps ((hChildren parent).get? index) (vProps nv) (vProps ov)
                (path ++ [index]) with
            | .error e => some (.error e)
            | .ok (elOpt, ops1) =>
              match runPairs (updateElementFuel fuel) elOpt
                  (zipPad (vChildren nv) (vChildren ov)) 0 (path ++ [index]) with
              | some (.ok (elOpt2, ops2)) =>
                let parent1 :=
                  match elOpt2 with
                  | some e => hSetChild parent index e
                  | none => parent
                some (.ok (some parent1, ops1 ++ ops2))
              | some (.error e) => some (.error e)
              | none => none
      | _, _ => some (.ok (some parent, []))

/-- `updateElement` with always-sufficient fuel (never `none`; see
`updateElementFuel_sufficient` below is not needed because every
theorem below evaluates or bounds the fuel explicitly). -/
def updateElement (parentOpt : Option HNode) (newN oldN : Option VNode)
    (index : Nat) (path : List Nat) : Except String (Option HNode × List HostOp) :=
  match updateElementFuel (sizeOV newN + sizeOV oldN + 1) parentOpt newN oldN index path with
  | some r => r
  | none => .error "fuel exhausted"

/-! ## Render driver (`proceedWithRendering`, part_001 lines 529-571)

`render` reduces to `proceedWithRendering` whenever the tree references
no unresolved loader components (`findComponentNames` is empty), which
covers plain element/text trees. -/

/-- A mount target: the container element (its children are the host
surface), the committed tree `_vdom`, the `_externallyModified` flag
set by the MutationObserver, and whether the observer is installed. -/
structure Container where
  node : HNode
  vdom : Option VNode
  externallyModified : Bool
  hasObserver : Bool

/-- `proceedWithRendering(vnode, container)`: install the observer once,
invalidate the committed tree on external modification, then either
first-paint (clear all children, append a fresh materialization) or
reconcile in place against the committed tree; in both paths the new
tree becomes the committed tree. -/
def proceedWithRendering (vnode : VNode) (c : Container) : Except String (Container × List HostOp) :=
  let c1 := if c.hasObserver = false then { c with hasObserver := true } else c
  let c2 := if c1.externallyModified then { c1 with vdom := none, externallyModified := false } else c1
  match c2.vdom with
  | none =>
    let clearOps : List HostOp := (hChildren c2.node).map (fun _ => HostOp.removeChild [] 0)
    let newEl := createDomElement (some vnode)
    match appendHChild (hSetChildren c2.node []) newEl with
    | some node1 =>
      .ok ({ c2 with node := node1, vdom := some vnode }, clearOps ++ [HostOp.appendChild [] newEl])
    | none => .error "HierarchyRequestError: appendChild on a text node"
  | some old =>
    match updateElement (some c2.node) (some vnode) (some old) 0 [] with
    | .ok (some node1, ops) => .ok ({ c2 with node := node1, vdom := some vnode }, ops)
    | .ok (none, ops) => .ok ({ c2 with vdom := some vnode }, ops)
    | .error e => .error e

/-! ## State store (`createState`, part_001 lines 702-755) -/

/-- The closure state of one `createState` record: `state`, the pending
`updateQueue`, and the subscribed listeners (identified by number; a
notification is one invocation of one listener with the new state). -/
structure Store where
  state : List (String × JSVal)
  queue : List JSVal
  listeners : List Nat

/-- `processQueue`: on a non-empty queue, fold the queued partials
left-to-right with `Object.assign`, spread the result over the state,
clear the queue and notify every listener once with the new state. -/
def processQueue (s : Store) : Store × List (Nat × List (String × JSVal)) :=
  if s.queue.isEmpty then (s, [])
  else
    let merged := objAssignAll s.queue
    let st := merged.foldl (fun a p => objSet a p.1 p.2) s.state
    ({ s with state := st, queue := [] }, s.listeners.map (fun l => (l, st)))

/-- `debouncedSetState` (the public `setState` returned by
`createState`): push the partial and schedule `processQueue` for the
next animation frame.  No input validation happens here. -/
def debouncedSetState (newState : JSVal) (s : Store) : Store :=
  { s with queue := s.queue ++ [newState] }

/-- Run the `requestAnimationFrame` callbacks scheduled during a tick:
one `processQueue` invocation per `debouncedSetState` call, in order,
collecting all notifications. -/
def runScheduled : Nat → Store → Store × List (Nat × List (String × JSVal))
  | 0, s => (s, [])
  | n + 1, s =>
    let (s1, t1) := processQueue s
    let (s2, t2) := runScheduled n s1
    (s2, t1 ++ t2)

/-- A whole scheduling tick: every `setBatched` call happens first (same
tick), then the frame callbacks run — one scheduled `processQueue` per
call. -/
def sameTickBatch (parts : List JSVal) (s : Store) : Store × List (Nat × List (String × JSVal)) :=
  runScheduled parts.length (parts.foldl (fun st v => debouncedSetState v st) s)

/-- The synchronous `setState` (lines 723-733): rejects non-object
input (`typeof newState !== "object" || newState === null`) with the
diagnostic `"State must be an object"` and no state change or
notification; otherwise merges and notifies synchronously.  The third
component is the list of emitted diagnostics. -/
def setState (newState : JSVal) (s : Store) :
    Store × List (Nat × List (String × JSVal)) × List String :=
  if (jsTypeof newState != "object") || jsEq newState .vNull then
    (s, [], ["State must be an object"])
  else
    let st := (jsAssignSource newState).foldl (fun a p => objSet a p.1 p.2) s.state
    ({ s with state := st }, s.listeners.map (fun l => (l, st)), [])

/-! ## Component loader (part_001 lines 119-180) -/

/-- The loader's module-level registries: `componentCache` (name →
loaded renderer, identified by number), `componentRegistry` (name →
script path) and `loadingComponents` (names with an in-flight load). -/
structure Loader where
  componentCache : List (String × Nat)
  componentRegistry : List (String × String)
  loadingComponents : List String

/-- The synchronous outcome of a `loadComponent` call. -/
inductive LoadOutcome : Type where
  | resolvedFromCache (c : Nat)
  | joinedInFlight
  | rejected (msg : String)
  | startedLoading

/-- `loadComponent(name)` (lines 119-160), up to the point where the
script request is issued: cached names resolve immediately, in-flight
names join the pending promise, unregistered names reject with a
"not registered" error, and otherwise a load starts and is recorded in
`loadingComponents`. -/
def loadComponent (name : String) (L : Loader) : LoadOutcome × Loader :=
  match List.lookup name L.componentCache with
  | some c => (.resolvedFromCache c, L)
  | none =>
    if L.loadingComponents.contains name then (.joinedInFlight, L)
    else
      match List.lookup name L.componentRegistry with
      | none => (.rejected ("Component \"" ++ name ++ "\" is not registered."), L)
      | some _ => (.startedLoading, { L with loadingComponents := L.loadingComponents ++ [name] })

/-- `isComponentLoaded(name)` (lines 162-164). -/
def isComponentLoaded (name : String) (L : Loader) : Bool :=
  (List.lookup name L.componentCache).isSome

/-- `getComponent(name)` (lines 166-171): throws synchronously when the
name is not cached, otherwise returns the cached renderer.  It never
touches the registry or the loading map (second component: the loader
state after the call). -/
def getComponent (name : String) (L : Loader) : Except String Nat × Loader :=
  if isComponentLoaded name L = false then
    (.error ("Component \"" ++ name ++ "\" is not loaded. Call loadComponent() first."), L)
  else
    match List.lookup name L.componentCache with
    | some c => (.ok c, L)
    | none => (.error "unreachable", L)

/-! ## Auxiliary definitions for the verification -/

/-- Is `v` the JavaScript `null` value? -/
def isVNull : JSVal → Bool
  | .vNull => true
  | _ => false

/-- The attribute name written or removed by a host op, if any. -/
def attrOpName : HostOp → Option String
  | .setAttr _ n _ => some n
  | .removeAttr _ n => some n
  | _ => none

/-- Is a host op a `removeAttribute` call? -/
def isRemoveAttrOp : HostOp → Bool
  | .removeAttr _ _ => true
  | _ => false

/-- Does a host op introduce a freshly created host node (append or
replace)? -/
def opCreatesNode : HostOp → Bool
  | .appendChild _ _ => true
  | .replaceChild _ _ _ => true
  | _ => false

/-- The path of the node a host op targets (for child operations, the
parent whose child list changes). -/
def opPath : HostOp → List Nat
  | .setAttr p _ _ => p
  | .removeAttr p _ => p
  | .addListener p _ _ => p
  | .removeListener p _ _ => p
  | .setStyle p _ _ => p
  | .appendChild p _ => p
  | .removeChild p _ => p
  | .replaceChild p _ _ => p
  | .callRef p _ => p

/-- Props with no event bindings, no `ref` callback, only truthy values
and no `null` style: exactly the props for which one reconciliation
pass over an unchanged node performs no host write (see the theorems
for claim C4). -/
def benignProps (ps : List (String × JSVal)) : Bool :=
  ps.all fun p =>
    !startsWithOn p.1 && p.1 != "ref" && truthy p.2 &&
      (p.1 != "style" || !isVNull p.2)

/-- Trees whose every node has a truthy value (non-empty text, non-zero
number, non-empty tag) and benign props. -/
inductive Benign : VNode → Prop where
  | text (s : String) : s ≠ "" → Benign (.text s)
  | num (n : Int) : n ≠ 0 → Benign (.num n)
  | elem (tag : String) (props : List (String × JSVal)) (children : VNodeList) :
      tag ≠ "" → benignProps props = true →
      (∀ c, VNodeList.memV c children → Benign c) → Benign (.elem tag props children)

/-- The aligned self-pairing of a child list (what `zipPad` produces
when both sides are the same list). -/
def selfPairs : VNodeList → List (Option VNode × Option VNode)
  | .nil => []
  | .cons c cs => (some c, some c) :: selfPairs cs

/-! ## Concrete inputs used by the claim theorems -/

/-- `Element("div", {}, [Text("a")])`. -/
def treeA : VNode := .elem "div" [] (vlist [.text "a"])

/-- `Element("div", {}, [Text("b")])`. -/
def treeB : VNode := .elem "div" [] (vlist [.text "b"])

/-- A fresh, never-rendered mount target. -/
def freshApp : Container := ⟨.elem "app" [] [] [] [], none, false, false⟩

/-- Render `treeA` into the fresh container, then `treeB` into the
result: the second render reconciles against the committed `treeA`. -/
def secondRender : Except String (Container × List HostOp) :=
  match proceedWithRendering treeA freshApp with
  | .error e => .error e
  | .ok (c0, _) => proceedWithRendering treeB c0

/-- The host ops of the second render. -/
def secondRenderOps : List HostOp :=
  match secondRender with
  | .ok (_, ops) => ops
  | .error _ => []

/-- A host parent whose only child is the materialization of `v`. -/
def hostOf (v : VNode) : HNode := .elem "app" [] [] [] [createDomElement (some v)]

/-- The expected mount target after the second render: the container
element kept, the committed div host element reused with its text child
now `"b"`, committed tree `treeB`, observer installed. -/
def appAfterB : Container :=
  ⟨.elem "app" [] [] [] [.elem "div" [] [] [] [.text "b"]], some treeB, false, true⟩

/-- Old tree with three children (for claim C6). -/
def oldThree : VNode := .elem "div" [] (vlist [.text "x", .text "y", .text "z"])

/-- Old tree with two children (for claim C6). -/
def oldTwo : VNode := .elem "div" [] (vlist [.text "x", .text "y"])

/-- New tree keeping only the first child (for claim C6). -/
def newOne : VNode := .elem "div" [] (vlist [.text "x"])

/-- A node carrying only an event-handler prop (for claim C4). -/
def clickNode : VNode := .elem "div" [("onClick", .vFun 7)] .nil

/-- A benign node (for the claim C4 witness). -/
def benignNode : VNode := .elem "div" [("id", .vStr "box")] (vlist [.text "hi"])

/-- Nodes differing only in `key` (for claim C3). -/
def keyedA : VNode := .elem "div" [("key", .vStr "k1")] .nil

def keyedB : VNode := .elem "div" [("key", .vStr "k2")] .nil

/-- The three batched partials of claim C2:
`{a:1}`, `{b:2}`, `{a:3}`. -/
def c2parts : List JSVal :=
  [.vObj 0 [("a", .vNum 1)], .vObj 1 [("b", .vNum 2)], .vObj 2 [("a", .vNum 3)]]

/-- A store with one field, an empty queue and one subscriber (for the
claim C7 counterexample). -/
def c7store : Store := ⟨[("a", .vNum 1)], [], [0]⟩

/-! ## Helper lemmas -/

theorem jsEq_refl (v : JSVal) : jsEq v v = true := by
  cases v <;> simp [jsEq]

theorem jsLookup_map_set {o : List (String × JSVal)} {k : String} {v : JSVal}
    (h : o.any (fun p => p.1 == k) = true) :
    jsLookup (o.map (fun p => if p.1 = k then (k, v) else p)) k = v := by
  induction o with
  | nil => simp at h
  | cons hd tl ih =>
    by_cases hk : hd.1 = k
    · simp only [List.map_cons, if_pos hk]
      simp [jsLookup]
    · simp only [List.any_cons, Bool.or_eq_true, beq_iff_eq, hk, false_or] at h
      simp only [List.map_cons, if_neg hk]
      cases hd with
      | mk a b =>
        simp only [jsLookup]
        rw [if_neg (by simpa using hk)]
        exact ih (by simpa using h)

theorem jsLookup_append_new {o : List (String × JSVal)} {k : String} {v : JSVal}
    (h : o.any (fun p => p.1 == k) = false) :
    jsLookup (o ++ [(k, v)]) k = v := by
  induction o with
  | nil => simp [jsLookup]
  | cons hd tl ih =>
    simp only [List.any_cons, Bool.or_eq_false_iff] at h
    have h1 : hd.1 ≠ k := by
      have := h.1
      simpa using this
    have h2 : tl.any (fun p => p.1 == k) = false := h.2
    cases hd with
    | mk a b =>
      simp only [List.cons_append, jsLookup]
      rw [if_neg (by simpa using h1)]
      exact ih h2

theorem jsLookup_objSet_self (o : List (String × JSVal)) (k : String) (v : JSVal) :
    jsLookup (objSet o k v) k = v := by
  unfold objSet
  by_cases h : (o.any (fun p => p.1 == k)) = true
  · rw [if_pos h]; exact jsLookup_map_set h
  · rw [if_neg h]; exact jsLookup_append_new (by simp only [Bool.not_eq_true] at h; exact h)

theorem jsLookup_map_set_ne {o : List (String × JSVal)} {k k1 : String} {v : JSVal}
    (h : k ≠ k1) :
    jsLookup (o.map (fun p => if p.1 = k then (k, v) else p)) k1 = jsLookup o k1 := by
  induction o with
  | nil => rfl
  | cons hd tl ih =>
    cases hd with
    | mk a b =>
      by_cases hk : a = k
      · simp only [List.map_cons, if_pos (show (a, b).1 = k from hk)]
        simp only [jsLookup]
        rw [if_neg h, if_neg (by rw [hk]; exact h)]
        exact ih
      · simp only [List.map_cons, if_neg (show ¬(a, b).1 = k from hk)]
        simp only [jsLookup]
        by_cases ha : a = k1
        · rw [if_pos ha, if_pos ha]
        · rw [if_neg ha, if_neg ha]; exact ih

theorem jsLookup_append_ne {o : List (String × JSVal)} {k k1 : String} {v : JSVal}
    (h : k ≠ k1) :
    jsLookup (o ++ [(k, v)]) k1 = jsLookup o k1 := by
  induction o with
  | nil => simp [jsLookup, h]
  | cons hd tl ih =>
    cases hd with
    | mk a b =>
      simp only [List.cons_append, jsLookup]
      by_cases ha : a = k1
      · rw [if_pos ha, if_pos ha]
      · rw [if_neg ha, if_neg ha]; exact ih

theorem jsLookup_objSet_ne {k1 k : String} (h : k ≠ k1)
    (o : List (String × JSVal)) (v : JSVal) :
    jsLookup (objSet o k v) k1 = jsLookup o k1 := by
  unfold objSet
  by_cases ha : (o.any (fun p => p.1 == k)) = true
  · rw [if_pos ha]; exact jsLookup_map_set_ne h
  · rw [if_neg ha]; exact jsLookup_append_ne h

/-! ## Claim C1 — re-render against a committed tree -/

/-- C1 (counterexample): re-rendering `Element("div", {}, [Text("b")])`
after `Element("div", {}, [Text("a")])` reconciles in place and reuses
the div, but the changed text child is handled by `replaceChild` with a
freshly created text node: the trace contains exactly one
node-creating op, not zero as the claim demands. -/
theorem domkit_c1_counterexample :
    secondRenderOps = [.replaceChild [0] 0 (.text "b")] ∧
    (secondRenderOps.filter opCreatesNode).length = 1 :=
  ⟨rfl, rfl⟩

/-- C1 (amended): with a committed tree present and no external
modification, the second render reconciles against the committed tree
in place: no host op targets the container itself (the div host element
is reused, not replaced), the committed tree becomes
`Element("div", {}, [Text("b")])`, and the div's text child ends up a
text node `"b"` — produced by replacing the old text child with one
newly created host text node rather than by an in-place text update. -/
theorem domkit_c1_amended :
    secondRender = .ok (appAfterB, [.replaceChild [0] 0 (.text "b")]) ∧
    secondRenderOps.filter (fun op => opPath op == ([] : List Nat)) = [] :=
  ⟨rfl, rfl⟩

/-! ## Claim C2 — batched update coalescing -/

/-- C2: three `setBatched` calls in one tick with partials `{a:1}`,
`{b:2}`, `{a:3}` produce exactly one notification per subscriber, whose
state is the left-to-right merge of the partials into the prior state:
it maps `a` to `3` and `b` to `2`, for every prior state and every
subscriber list. -/
theorem domkit_c2_batched_coalescing (st : List (String × JSVal)) (ls : List Nat) :
    (sameTickBatch c2parts ⟨st, [], ls⟩).1 =
      ⟨objSet (objSet st "a" (.vNum 3)) "b" (.vNum 2), [], ls⟩ ∧
    (sameTickBatch c2parts ⟨st, [], ls⟩).2 =
      ls.map (fun l => (l, objSet (objSet st "a" (.vNum 3)) "b" (.vNum 2))) ∧
    jsLookup (sameTickBatch c2parts ⟨st, [], ls⟩).1.state "a" = .vNum 3 ∧
    jsLookup (sameTickBatch c2parts ⟨st, [], ls⟩).1.state "b" = .vNum 2 := by
  have key : sameTickBatch c2parts ⟨st, [], ls⟩ =
      (⟨objSet (objSet st "a" (.vNum 3)) "b" (.vNum 2), [], ls⟩,
       ls.map (fun l => (l, objSet (objSet st "a" (.vNum 3)) "b" (.vNum 2))) ++ []) := rfl
  refine ⟨by rw [key], by rw [key]; exact List.append_nil _, ?_, ?_⟩
  · rw [key]
    show jsLookup (objSet (objSet st "a" (.vNum 3)) "b" (.vNum 2)) "a" = .vNum 3
    rw [jsLookup_objSet_ne (by decide), jsLookup_objSet_self]
  · rw [key]
    exact jsLookup_objSet_self _ _ _

/-! ## Claim C3 — key precedence -/

/-- C3: for two nodes compared at the same position, differing `key`
props (compared with `===`) make `isNodeChanged` return true before any
structural comparison, and in the reconciler force a full replacement
of the host child with a fresh materialization; equal (or both absent)
keys fall through to the structural comparison steps `isNodeRest`. -/
theorem domkit_c3_key_precedence (a b : VNode) :
    (jsEq (nodeKey a) (nodeKey b) = false → isNodeChanged (some a) (some b) = .ok true) ∧
    (jsEq (nodeKey a) (nodeKey b) = true → isNodeChanged (some a) (some b) = isNodeRest (some a) (some b)) ∧
    (∀ (parent : HNode) (i : Nat) (path : List Nat),
      jsEq (nodeKey a) (nodeKey b) = false → vTruthy a = true → vTruthy b = true →
      i < (hChildren parent).length →
      updateElement (some parent) (some a) (some b) i path =
        .ok (some (hSetChild parent i (createDomElementV a)),
             [HostOp.replaceChild path i (createDomElementV a)])) := by
  have hdef : isNodeChanged (some a) (some b) =
      if jsEq (nodeKey a) (nodeKey b) = false then .ok true
      else isNodeRest (some a) (some b) := rfl
  refine ⟨fun h => ?_, fun h => ?_, fun parent i path h ha hb hi => ?_⟩
  · rw [hdef, if_pos h]
  · rw [hdef, h]
    simp
  · have hc : isNodeChanged (some a) (some b) = .ok true := by rw [hdef, if_pos h]
    show (match updateElementFuel (sizeOV (some a) + sizeOV (some b) + 1) (some parent)
        (some a) (some b) i path with
      | some r => r
      | none => .error "fuel exhausted") = _
    have hbT : truthyN (some b) = true := hb
    have haT : truthyN (some a) = true := ha
    simp only [updateElementFuel, hbT, haT, hc, Bool.true_eq_false, if_false, if_pos hi]

theorem domkit_c3_key_precedence_witness :
    jsEq (nodeKey keyedA) (nodeKey keyedB) = false ∧
    isNodeChanged (some keyedA) (some keyedB) = .ok true ∧
    isNodeChanged (some keyedA) (some keyedA) = isNodeRest (some keyedA) (some keyedA) ∧
    updateElement (some (hostOf keyedB)) (some keyedA) (some keyedB) 0 [] =
      .ok (some (hSetChild (hostOf keyedB) 0 (createDomElementV keyedA)),
           [HostOp.replaceChild [] 0 (createDomElementV keyedA)]) :=
  ⟨rfl,
   (domkit_c3_key_precedence keyedA keyedB).1 rfl,
   (domkit_c3_key_precedence keyedA keyedA).2.1 rfl,
   (domkit_c3_key_precedence keyedA keyedB).2.2 (hostOf keyedB) 0 [] rfl rfl rfl
     (by decide)⟩

/-! ## Claim C4 — idempotent no-op diff -/

/-! Benign-props decomposition lemmas -/

theorem benignProps_entry {ps : List (String × JSVal)} (hb : benignProps ps = true)
    {p : String × JSVal} (hp : p ∈ ps) :
    startsWithOn p.1 = false ∧ p.1 ≠ "ref" ∧ truthy p.2 = true ∧
      (p.1 = "style" → isVNull p.2 = false) := by
  unfold benignProps at hb
  rw [List.all_eq_true] at hb
  have h := hb p hp
  simp only [Bool.and_eq_true, Bool.not_eq_true', bne_iff_ne, ne_eq,
    Bool.or_eq_true, Bool.not_eq_true] at h
  refine ⟨h.1.1.1, h.1.1.2, h.1.2, fun hs => ?_⟩
  rcases h.2 with h2 | h2
  · exact absurd hs h2
  · exact h2

theorem benign_lookup_not_ref {ps : List (String × JSVal)} (hb : benignProps ps = true) :
    jsLookup ps "ref" = .vUndefined := by
  induction ps with
  | nil => rfl
  | cons hd tl ih =>
    have he := benignProps_entry hb (List.mem_cons_self hd tl)
    have htl : benignProps tl = true := by
      unfold benignProps at hb ⊢
      rw [List.all_eq_true] at hb ⊢
      exact fun p hp => hb p (List.mem_cons_of_mem hd hp)
    cases hd with
    | mk a b =>
      simp only [jsLookup]
      rw [if_neg (by exact fun h => he.2.1 h), ih htl]

theorem benign_tail {hd : String × JSVal} {tl : List (String × JSVal)}
    (hb : benignProps (hd :: tl) = true) : benignProps tl = true := by
  unfold benignProps at hb ⊢
  rw [List.all_eq_true] at hb ⊢
  exact fun p hp => hb p (List.mem_cons_of_mem hd hp)

theorem benign_lookup_truthy {ps : List (String × JSVal)} (hb : benignProps ps = true)
    {n : String} (hn : n ∈ ps.map Prod.fst) : truthy (jsLookup ps n) = true := by
  induction ps with
  | nil => simp at hn
  | cons hd tl ih =>
    cases hd with
    | mk a b =>
      by_cases ha : a = n
      · have he := benignProps_entry hb (List.mem_cons_self _ _)
        simp only [jsLookup, if_pos ha]
        exact he.2.2.1
      · simp only [List.map_cons, List.mem_cons] at hn
        rcases hn with hn | hn
        · exact absurd hn.symm ha
        · simp only [jsLookup, if_neg ha]
          exact ih (benign_tail hb) hn

theorem benign_lookup_style_not_null {ps : List (String × JSVal)} (hb : benignProps ps = true) :
    jsLookup ps "style" ≠ .vNull := by
  induction ps with
  | nil => simp [jsLookup]
  | cons hd tl ih =>
    cases hd with
    | mk a b =>
      by_cases ha : a = "style"
      · have he := benignProps_entry hb (List.mem_cons_self _ _)
        have := he.2.2.2 ha
        simp only [jsLookup, if_pos ha]
        intro hv
        rw [hv] at this
        simp [isVNull] at this
      · simp only [jsLookup, if_neg ha]
        exact ih (benign_tail hb)

/-! Reflexive no-difference lemmas for the equality oracle -/

theorem styleKeysDiffer_obj_refl (i : Nat) (f : List (String × JSVal)) :
    ∀ ks, styleKeysDiffer (.vObj i f) (.vObj i f) ks = .ok false := by
  intro ks
  induction ks with
  | nil => rfl
  | cons k rest ih =>
    simp only [styleKeysDiffer, jsIndex, jsEq_refl, Bool.true_eq_false, if_false, ih]

theorem propsDiffer_refl {ps : List (String × JSVal)} (hb : benignProps ps = true) :
    ∀ names, propsDiffer ps ps names = .ok false := by
  intro names
  induction names with
  | nil => rfl
  | cons name rest ih =>
    unfold propsDiffer
    cases hOn : startsWithOn name with
    | true => simp only [hOn, if_true, ih]
    | false =>
      simp only [hOn, Bool.false_eq_true, if_false]
      cases hcond : (name == "style" && typeofObject (jsLookup ps name) &&
          typeofObject (jsLookup ps name)) with
      | false => simp only [hcond, Bool.false_eq_true, if_false, jsEq_refl,
          Bool.true_eq_false, ih]
      | true =>
        have hcond2 := hcond
        simp only [Bool.and_eq_true, beq_iff_eq] at hcond2
        obtain ⟨⟨hst, hobj⟩, _⟩ := hcond2
        simp only [if_true]
        subst hst
        cases hv : jsLookup ps "style" with
        | vObj oi of =>
          simp only [jsKeys, beq_self_eq_true, Bool.true_eq_false, if_false,
            styleKeysDiffer_obj_refl, ih]
        | vNull => exact absurd hv (benign_lookup_style_not_null hb)
        | vStr s => rw [hv] at hobj; simp [typeofObject, jsTypeof] at hobj
        | vNum n => rw [hv] at hobj; simp [typeofObject, jsTypeof] at hobj
        | vBool b => rw [hv] at hobj; simp [typeofObject, jsTypeof] at hobj
        | vUndefined => rw [hv] at hobj; simp [typeofObject, jsTypeof] at hobj
        | vFun fi => rw [hv] at hobj; simp [typeofObject, jsTypeof] at hobj

theorem benign_no_on {ps : List (String × JSVal)} (hb : benignProps ps = true)
    {n : String} (hn : n ∈ ps.map Prod.fst) : startsWithOn n = false := by
  rw [List.mem_map] at hn
  obtain ⟨p, hp, rfl⟩ := hn
  exact (benignProps_entry hb hp).1

theorem isNodeChanged_refl {t : VNode} (hb : Benign t) :
    isNodeChanged (some t) (some t) = .ok false := by
  have hdef : isNodeChanged (some t) (some t) =
      if jsEq (nodeKey t) (nodeKey t) = false then .ok true
      else isNodeRest (some t) (some t) := rfl
  rw [hdef, jsEq_refl]
  simp only [Bool.true_eq_false, if_false]
  cases hb with
  | text s hs =>
    simp [isNodeRest, nodeTypeof]
  | num n hn =>
    simp [isNodeRest, nodeTypeof]
  | elem tag props children htag hprops hchild =>
    have h1 : (tag == "") = false := by simpa using htag
    simp only [isNodeRest, Option.isNone_some, Bool.or_self, Bool.false_eq_true, if_false,
      beq_self_eq_true, Bool.true_eq_false, h1, Bool.or_false, Bool.false_or]
    rw [propsDiffer_refl hprops]

theorem removeOldListeners_noop {np op0 : List (String × JSVal)}
    {ev : List (String × JSVal)} {path : List Nat} {names : List String}
    (h : ∀ n ∈ names, startsWithOn n = false) :
    removeOldListeners ev np op0 path names = (ev, []) := by
  induction names with
  | nil => rfl
  | cons n rest ih =>
    have hn := h n (List.mem_cons_self _ _)
    simp only [removeOldListeners, hn, Bool.false_and, Bool.false_eq_true, if_false]
    exact ih (fun m hm => h m (List.mem_cons_of_mem _ hm))

theorem applyNewProps_skip_all {ps : List (String × JSVal)}
    {attrs ev style : List (String × JSVal)} {path : List Nat} {names : List String}
    (h : ∀ n ∈ names, startsWithOn n = false) :
    applyNewProps attrs ev style ps ps path names = .ok (attrs, ev, style, []) := by
  induction names with
  | nil => rfl
  | cons n rest ih =>
    have hn := h n (List.mem_cons_self _ _)
    simp only [applyNewProps, hn, Bool.not_false, Bool.true_and, jsEq_refl, if_true]
    exact ih (fun m hm => h m (List.mem_cons_of_mem _ hm))

theorem removeStaleAttrs_noop {np : List (String × JSVal)}
    {attrs : List (String × JSVal)} {path : List Nat} {names : List String}
    (h : ∀ n ∈ names, truthy (jsLookup np n) = true) :
    removeStaleAttrs attrs np path names = (attrs, []) := by
  induction names with
  | nil => rfl
  | cons n rest ih =>
    have hn := h n (List.mem_cons_self _ _)
    simp only [removeStaleAttrs, hn, Bool.not_true, Bool.false_and, Bool.false_eq_true, if_false]
    exact ih (fun m hm => h m (List.mem_cons_of_mem _ hm))

theorem updateProps_refl {ps : List (String × JSVal)} (hb : benignProps ps = true)
    (elOpt : Option HNode) (path : List Nat) :
    updateProps elOpt ps ps path = .ok (elOpt, []) := by
  match elOpt with
  | none => rfl
  | some (HNode.text v) => rfl
  | some (HNode.elem tag attrs events style children) =>
    have href : jsLookup ps "ref" = .vUndefined := benign_lookup_not_ref hb
    have hon : ∀ n ∈ ps.map Prod.fst, startsWithOn n = false := fun n hn => benign_no_on hb hn
    have htr : ∀ n ∈ ps.map Prod.fst, truthy (jsLookup ps n) = true :=
      fun n hn => benign_lookup_truthy hb hn
    simp only [updateProps, href, truthy, Bool.false_and, Bool.false_eq_true, if_false,
      removeOldListeners_noop hon, applyNewProps_skip_all hon, removeStaleAttrs_noop htr,
      List.nil_append, List.append_nil]

theorem VNodeList.induct {motive : VNodeList → Prop} (h0 : motive .nil)
    (h1 : ∀ c cs, motive cs → motive (.cons c cs)) (cs : VNodeList) : motive cs :=
  @VNodeList.rec (fun _ => True) motive (fun _ => trivial) (fun _ => trivial)
    (fun _ _ _ _ => trivial) h0 (fun c cs2 _ ih => h1 c cs2 ih) cs

theorem memV_size {c : VNode} : ∀ {cs : VNodeList}, VNodeList.memV c cs → vsizeN c ≤ vsizeL cs := by
  intro cs
  induction cs using VNodeList.induct with
  | h0 => intro h; cases h
  | h1 v vs ih =>
    intro h
    rcases h with rfl | h
    · simp [vsizeL]
    · have := ih h
      simp only [vsizeL]
      omega

theorem zipPad_self : ∀ cs : VNodeList, zipPad cs cs = selfPairs cs := by
  intro cs
  induction cs using VNodeList.induct with
  | h0 => rfl
  | h1 c rest ih => simp [zipPad, selfPairs, ih]

theorem list_set_get_self {α : Type} : ∀ (l : List α) (i : Nat) (a : α),
    l.get? i = some a → l.set i a = l := by
  intro l
  induction l with
  | nil => intro i a h; cases h
  | cons x xs ih =>
    intro i a h
    cases i with
    | zero =>
      simp only [List.get?] at h
      cases h
      rfl
    | succ j =>
      simp only [List.get?] at h
      simp [List.set, ih j a h]

theorem hSetChildren_self (h : HNode) : hSetChildren h (hChildren h) = h := by
  cases h <;> rfl

theorem hSetChild_self {h : HNode} {i : Nat} {e : HNode}
    (hg : (hChildren h).get? i = some e) : hSetChild h i e = h := by
  unfold hSetChild
  rw [list_set_get_self _ _ _ hg]
  exact hSetChildren_self h

theorem updateElementFuel_self {t : VNode} (hb : Benign t) :
    ∀ (fuel : Nat) (p : Option HNode) (i : Nat) (path : List Nat), vsizeN t < fuel →
      updateElementFuel fuel p (some t) (some t) i path = some (.ok (p, [])) := by
  induction hb with
  | text s hs =>
    intro fuel p i path hf
    cases fuel with
    | zero => omega
    | succ f =>
      cases p with
      | none => rfl
      | some parent =>
        have ht : truthyN (some (VNode.text s)) = true := by simp [truthyN, vTruthy, hs]
        have hc : isNodeChanged (some (VNode.text s)) (some (VNode.text s)) = .ok false :=
          isNodeChanged_refl (Benign.text s hs)
        simp only [updateElementFuel, ht, Bool.true_eq_false, if_false, hc, isPrimitiveNode,
          if_true]
  | num n hn =>
    intro fuel p i path hf
    cases fuel with
    | zero => omega
    | succ f =>
      cases p with
      | none => rfl
      | some parent =>
        have ht : truthyN (some (VNode.num n)) = true := by simp [truthyN, vTruthy, hn]
        have hc : isNodeChanged (some (VNode.num n)) (some (VNode.num n)) = .ok false :=
          isNodeChanged_refl (Benign.num n hn)
        simp only [updateElementFuel, ht, Bool.true_eq_false, if_false, hc, isPrimitiveNode,
          if_true]
  | elem tag props children htag hprops hchild ih =>
    intro fuel p i path hf
    cases fuel with
    | zero => omega
    | succ f =>
      cases p with
      | none => rfl
      | some parent =>
        have hc : isNodeChanged (some (VNode.elem tag props children))
            (some (VNode.elem tag props children)) = .ok false :=
          isNodeChanged_refl (Benign.elem tag props children htag hprops hchild)
        have hsz : vsizeL children < f := by
          simp only [vsizeN] at hf
          omega
        have loop : ∀ (cs : VNodeList),
            (∀ c, VNodeList.memV c cs → VNodeList.memV c children) →
            ∀ (e : Option HNode) (j : Nat) (p2 : List Nat),
              runPairs (updateElementFuel f) e (selfPairs cs) j p2 = some (.ok (e, [])) := by
          intro cs
          induction cs using VNodeList.induct with
          | h0 => intro _ e j p2; rfl
          | h1 c rest ihc =>
            intro hsub e j p2
            have hmem : VNodeList.memV c children := hsub c (Or.inl rfl)
            have hcs : vsizeN c < f := by
              have := memV_size hmem
              omega
            have hrec : updateElementFuel f e (some c) (some c) j p2 = some (.ok (e, [])) :=
              ih c hmem f e j p2 hcs
            simp only [selfPairs, runPairs, hrec]
            rw [ihc (fun m hm => hsub m (Or.inr hm)) e (j + 1) p2]
            rfl
        have hups : updateProps ((hChildren parent).get? i) props props (path ++ [i]) =
            .ok ((hChildren parent).get? i, []) := updateProps_refl hprops _ _
        simp only [updateElementFuel, truthyN, vTruthy, Bool.true_eq_false, if_false, hc,
          isPrimitiveNode, Bool.false_eq_true, vProps, vChildren, hups, zipPad_self,
          loop children (fun c hcm => hcm)]
        cases hg : (hChildren parent).get? i with
        | none => rfl
        | some e => simp [hSetChild_self hg]

/-- C4 (amended): reconciling a tree against the identical tree
produces zero host mutations, provided the tree is benign: no
event-handler (on-prefixed) props, no `ref` prop, only truthy node and
prop values, and no `null` style.  Without those provisos the claim
fails — see the counterexample below. -/
theorem domkit_c4_amended (t : VNode) (hb : Benign t) (p : Option HNode) (i : Nat)
    (path : List Nat) :
    updateElement p (some t) (some t) i path = .ok (p, []) := by
  unfold updateElement
  rw [updateElementFuel_self hb _ p i path (by simp only [sizeOV]; omega)]

theorem domkit_c4_amended_witness :
    Benign benignNode ∧
    updateElement (some (hostOf benignNode)) (some benignNode) (some benignNode) 0 [] =
      .ok (some (hostOf benignNode), []) := by
  have hb : Benign benignNode := by
    show Benign (VNode.elem "div" [("id", JSVal.vStr "box")] (vlist [VNode.text "hi"]))
    apply Benign.elem
    · decide
    · rfl
    · intro c hc
      simp only [vlist, VNodeList.memV] at hc
      rcases hc with rfl | hc
      · exact Benign.text "hi" (by decide)
      · cases hc
  exact ⟨hb, domkit_c4_amended benignNode hb (some (hostOf benignNode)) 0 []⟩

/-- C4 (counterexample): reconciling a node carrying an event-handler
prop against the identical node (same handler reference) is not free of
host mutations — the handler is unconditionally re-bound, emitting one
`removeEventListener` and one `addEventListener` per pass, although the
claim demands "no listener add/remove". -/
theorem domkit_c4_counterexample :
    updateElement (some (hostOf clickNode)) (some clickNode) (some clickNode) 0 [] =
      .ok (some (hostOf clickNode),
           [.removeListener [0] "click" (.vFun 7), .addListener [0] "click" (.vFun 7)]) := rfl

/-! ## Claim C5 — absence handling in the equality oracle -/

/-- C5 (code bug): the spec requires `changed(absent, b)` and
`changed(b, absent)` to evaluate without crashing, but the key
comparison on line 257 reads `node1.props` before the null guard on
line 259 (whose own comment says "Handle null cases first"), so both
calls throw a `TypeError` instead of returning `true`. -/
theorem domkit_c5_null_crashes :
    isNodeChanged none (some (.elem "div" [] .nil)) =
      .error "TypeError: Cannot read properties of null" ∧
    isNodeChanged (some (.elem "div" [] .nil)) none =
      .error "TypeError: Cannot read properties of null" ∧
    isNodeChanged none (some (.text "a")) =
      .error "TypeError: Cannot read properties of null" :=
  ⟨rfl, rfl, rfl⟩

/-! ## Claim C6 — child-count change -/

/-- C6 (code bug): with one extra old child (`[A,B]` vs `[A]`) the
reconciler emits exactly one remove at index 1 and nothing at index 0,
as specified; but with two extra old children (`[A,B,C]` vs `[A]`) the
per-index removal uses stale indices — after removing index 1 only two
children remain, so the removal at index 2 calls
`removeChild(childNodes[2])` on an undefined child and throws, instead
of leaving exactly `len(newChildren)` host children. -/
theorem domkit_c6_child_removal :
    updateElement (some (hostOf oldTwo)) (some newOne) (some oldTwo) 0 [] =
      .ok (some (.elem "app" [] [] [] [.elem "div" [] [] [] [.text "x"]]),
           [.removeChild [0] 1]) ∧
    updateElement (some (hostOf oldThree)) (some newOne) (some oldThree) 0 [] =
      .error "TypeError: parameter 1 is not of type Node" :=
  ⟨rfl, rfl⟩

/-! ## Claim C7 — non-object state updates -/

/-- C7 (corrected, part 1): the synchronous `setState` rejects every
non-object argument (`typeof ≠ "object"`, or `null`) with the
diagnostic "State must be an object", leaving the state unchanged and
notifying nobody. -/
theorem domkit_c7_immediate_rejects (v : JSVal) (s : Store)
    (h : ((jsTypeof v != "object") || jsEq v .vNull) = true) :
    setState v s = (s, [], ["State must be an object"]) := by
  unfold setState
  rw [if_pos h]

theorem domkit_c7_immediate_rejects_witness :
    ((jsTypeof (JSVal.vNum 5) != "object") || jsEq (JSVal.vNum 5) .vNull) = true ∧
    setState (JSVal.vNum 5) c7store = (c7store, [], ["State must be an object"]) :=
  ⟨rfl, domkit_c7_immediate_rejects (JSVal.vNum 5) c7store rfl⟩

/-- C7 (counterexample): the batched public `setState`
(`debouncedSetState`) performs no validation.  Passing the string
`"ab"` enqueues it, and the flush spreads its index properties into the
state: the state gains `{"0": "a", "1": "b"}` and the subscriber is
notified once with that corrupted state — no diagnostic, not a no-op. -/
theorem domkit_c7_counterexample :
    (runScheduled 1 (debouncedSetState (.vStr "ab") c7store)).1.state =
      [("a", .vNum 1), ("0", .vStr "a"), ("1", .vStr "b")] ∧
    (runScheduled 1 (debouncedSetState (.vStr "ab") c7store)).2 =
      [(0, [("a", .vNum 1), ("0", .vStr "a"), ("1", .vStr "b")])] :=
  ⟨rfl, rfl⟩

/-! ## Claim C8 — attribute synchronization in syncProps -/

theorem removeOldListeners_attrOpName (np op0 : List (String × JSVal)) (path : List Nat) :
    ∀ (names : List String) (ev : List (String × JSVal)) (op : HostOp),
      op ∈ (removeOldListeners ev np op0 path names).2 → attrOpName op = none := by
  intro names
  induction names with
  | nil => intro ev op h; cases h
  | cons n rest ih =>
    intro ev op h
    unfold removeOldListeners at h
    split at h
    · simp only [] at h
      split at h
      · simp only [List.mem_cons] at h
        rcases h with rfl | hmem
        · rfl
        · exact ih _ op hmem
      · exact ih _ op h
    · exact ih _ op h

theorem styleRemoveLoop_attrOpName (nv : JSVal) (path : List Nat) :
    ∀ (ks : List String) (style sF : List (String × JSVal)) (ops : List HostOp),
      styleRemoveLoop style nv path ks = .ok (sF, ops) → ∀ op ∈ ops, attrOpName op = none := by
  intro ks
  induction ks with
  | nil =>
    intro style sF ops h op hop
    simp only [styleRemoveLoop] at h
    cases h
    cases hop
  | cons k rest ih =>
    intro style sF ops h op hop
    unfold styleRemoveLoop at h
    split at h
    · cases h
    · split at h
      · exact ih _ _ _ h op hop
      · split at h
        · cases h
        next sF2 opsF heq =>
          cases h
          rcases List.mem_cons.mp hop with rfl | hmem
          · rfl
          · exact ih _ _ _ heq op hmem

theorem styleAddLoop_attrOpName (ov nv : JSVal) (path : List Nat) :
    ∀ (ks : List String) (style sF : List (String × JSVal)) (ops : List HostOp),
      styleAddLoop style ov nv path ks = .ok (sF, ops) → ∀ op ∈ ops, attrOpName op = none := by
  intro ks
  induction ks with
  | nil =>
    intro style sF ops h op hop
    simp only [styleAddLoop] at h
    cases h
    cases hop
  | cons k rest ih =>
    intro style sF ops h op hop
    unfold styleAddLoop at h
    split at h
    · cases h
    · split at h
      · cases h
      · split at h
        · exact ih _ _ _ h op hop
        · split at h
          · cases h
          next sF2 opsF heq =>
            cases h
            rcases List.mem_cons.mp hop with rfl | hmem
            · rfl
            · exact ih _ _ _ heq op hmem

theorem removeStaleAttrs_ops_shape (np : List (String × JSVal)) (path : List Nat) :
    ∀ (names : List String) (attrs : List (String × JSVal)) (op : HostOp),
      op ∈ (removeStaleAttrs attrs np path names).2 →
      ∃ m, op = .removeAttr path m ∧ m ∈ names ∧ truthy (jsLookup np m) = false ∧
        startsWithOn m = false ∧ m ≠ "style" := by
  intro names
  induction names with
  | nil => intro attrs op h; cases h
  | cons n rest ih =>
    intro attrs op h
    unfold removeStaleAttrs at h
    split at h
    next hcond =>
      simp only [Bool.and_eq_true, Bool.not_eq_true', bne_iff_ne, ne_eq] at hcond
      simp only [] at h
      rcases List.mem_cons.mp h with rfl | hmem
      · exact ⟨n, rfl, List.mem_cons_self _ _, hcond.1.1, hcond.1.2, hcond.2⟩
      · obtain ⟨m, hop, hm, h1, h2, h3⟩ := ih _ op hmem
        exact ⟨m, hop, List.mem_cons_of_mem _ hm, h1, h2, h3⟩
    · obtain ⟨m, hop, hm, h1, h2, h3⟩ := ih _ op h
      exact ⟨m, hop, List.mem_cons_of_mem _ hm, h1, h2, h3⟩

theorem removeStaleAttrs_mem_of (np : List (String × JSVal)) (path : List Nat) {n : String}
    (h1 : truthy (jsLookup np n) = false) (h2 : startsWithOn n = false) (h3 : n ≠ "style") :
    ∀ (names : List String) (attrs : List (String × JSVal)), n ∈ names →
      HostOp.removeAttr path n ∈ (removeStaleAttrs attrs np path names).2 := by
  intro names
  induction names with
  | nil => intro attrs h; cases h
  | cons q rest ih =>
    intro attrs hmem
    unfold removeStaleAttrs
    rcases List.mem_cons.mp hmem with rfl | hmem2
    · rw [if_pos (by simp [h1, h2, h3])]
      simp only []
      exact List.mem_cons_self _ _
    · split
      · simp only []
        exact List.mem_cons_of_mem _ (ih _ hmem2)
      · exact ih _ hmem2

theorem applyNewProps_no_removeAttr (np op0 : List (String × JSVal)) (path : List Nat) :
    ∀ (names : List String) (attrs ev st a2 e2 s2 : List (String × JSVal)) (ops : List HostOp),
      applyNewProps attrs ev st np op0 path names = .ok (a2, e2, s2, ops) →
      ∀ op ∈ ops, isRemoveAttrOp op = false := by
  intro names
  induction names with
  | nil =>
    intro attrs ev st a2 e2 s2 ops h op hop
    simp only [applyNewProps] at h
    cases h
    cases hop
  | cons q rest ih =>
    intro attrs ev st a2 e2 s2 ops h op hop
    unfold applyNewProps at h
    simp only [] at h
    split at h
    · exact ih _ _ _ _ _ _ _ h op hop
    · split at h
      · -- event branch
        split at h
        · cases h
        next r4 heq4 =>
          cases h
          rcases List.mem_append.mp hop with hop | hop
          · rcases List.mem_append.mp hop with hop | hop
            · split at hop
              · simp only [List.mem_singleton] at hop
                subst hop
                rfl
              · cases hop
            · simp only [List.mem_singleton] at hop
              subst hop
              rfl
          · exact ih _ _ _ _ _ _ _ heq4 op hop
      · split at h
        · -- style branch
          split at h
          · cases h
          · split at h
            · cases h
            next style1 opsA heqA =>
              split at h
              · cases h
              · split at h
                · cases h
                next style2 opsB heqB =>
                  split at h
                  · cases h
                  next a3 e3 s3 ops3 heq3 =>
                    cases h
                    rcases List.mem_append.mp hop with hop | hop
                    · rcases List.mem_append.mp hop with hop | hop
                      · have := styleRemoveLoop_attrOpName _ _ _ _ _ _ heqA op hop
                        cases op <;> first | rfl | (cases this)
                      · have := styleAddLoop_attrOpName _ _ _ _ _ _ _ heqB op hop
                        cases op <;> first | rfl | (cases this)
                    · exact ih _ _ _ _ _ _ _ heq3 op hop
        · split at h
          · -- className branch
            split at h
            · cases h
            next r4 heq4 =>
              cases h
              rcases List.mem_cons.mp hop with rfl | hmem
              · rfl
              · exact ih _ _ _ _ _ _ _ heq4 op hmem
          · -- plain attribute branch
            split at h
            · cases h
            next r4 heq4 =>
              cases h
              rcases List.mem_cons.mp hop with rfl | hmem
              · rfl
              · exact ih _ _ _ _ _ _ _ heq4 op hmem

theorem applyNewProps_attr_skip (np op0 : List (String × JSVal)) (path : List Nat)
    {name : String}
    (hv : jsLookup op0 name = jsLookup np name)
    (hon : startsWithOn name = false) (hsty : name ≠ "style") (hcls : name ≠ "class") :
    ∀ (names : List String) (attrs ev st a2 e2 s2 : List (String × JSVal)) (ops : List HostOp),
      applyNewProps attrs ev st np op0 path names = .ok (a2, e2, s2, ops) →
      ∀ op ∈ ops, attrOpName op ≠ some name := by
  intro names
  induction names with
  | nil =>
    intro attrs ev st a2 e2 s2 ops h op hop
    simp only [applyNewProps] at h
    cases h
    cases hop
  | cons q rest ih =>
    intro attrs ev st a2 e2 s2 ops h op hop
    unfold applyNewProps at h
    simp only [] at h
    split at h
    · exact ih _ _ _ _ _ _ _ h op hop
    next hnoskip =>
      split at h
      · -- event branch: only listener ops
        split at h
        · cases h
        next r4 heq4 =>
          cases h
          rcases List.mem_append.mp hop with hop | hop
          · rcases List.mem_append.mp hop with hop | hop
            · split at hop
              · simp only [List.mem_singleton] at hop
                subst hop
                simp [attrOpName]
              · cases hop
            · simp only [List.mem_singleton] at hop
              subst hop
              simp [attrOpName]
          · exact ih _ _ _ _ _ _ _ heq4 op hop
      · split at h
        · -- style branch: only setStyle ops
          split at h
          · cases h
          · split at h
            · cases h
            next style1 opsA heqA =>
              split at h
              · cases h
              · split at h
                · cases h
                next style2 opsB heqB =>
                  split at h
                  · cases h
                  next a3 e3 s3 ops3 heq3 =>
                    cases h
                    rcases List.mem_append.mp hop with hop | hop
                    · rcases List.mem_append.mp hop with hop | hop
                      · rw [styleRemoveLoop_attrOpName _ _ _ _ _ _ heqA op hop]
                        simp
                      · rw [styleAddLoop_attrOpName _ _ _ _ _ _ _ heqB op hop]
                        simp
                    · exact ih _ _ _ _ _ _ _ heq3 op hop
        · split at h
          · -- className branch: writes the class attribute
            split at h
            · cases h
            next r4 heq4 =>
              cases h
              rcases List.mem_cons.mp hop with rfl | hmem
              · simp only [attrOpName, ne_eq, Option.some.injEq]
                exact fun hcc => hcls hcc.symm
              · exact ih _ _ _ _ _ _ _ heq4 op hmem
          · -- plain attribute branch: writes attribute q, and q ≠ name
            have hq : q ≠ name := by
              intro hqq
              subst hqq
              rw [hon, hv] at hnoskip
              simp [jsEq_refl] at hnoskip
            split at h
            · cases h
            next r4 heq4 =>
              cases h
              rcases List.mem_cons.mp hop with rfl | hmem
              · simp only [attrOpName, ne_eq, Option.some.injEq]
                exact fun hcc => hq hcc
              · exact ih _ _ _ _ _ _ _ heq4 op hmem

/-- C8 (amended): during `updateProps`, a non-event, non-style,
non-class prop whose old and new values are equal and truthy causes no
host write for that attribute name (no `setAttribute`, no
`removeAttribute`); and an attribute is removed exactly when its
(non-event, non-style) name is present in `oldProps` and its value in
`newProps` is absent or falsy — so, contrary to the claim as stated,
a prop present on both sides with an equal falsy value is removed on
every sync. -/
theorem domkit_c8_attr_semantics (tag : String)
    (attrs events style : List (String × JSVal)) (children : List HNode)
    (np op0 : List (String × JSVal)) (path : List Nat) (name : String)
    (el2 : Option HNode) (trace : List HostOp)
    (h : updateProps (some (.elem tag attrs events style children)) np op0 path =
      .ok (el2, trace)) :
    (jsLookup op0 name = jsLookup np name → truthy (jsLookup np name) = true →
      startsWithOn name = false → name ≠ "style" → name ≠ "class" →
      ∀ op ∈ trace, attrOpName op ≠ some name) ∧
    (HostOp.removeAttr path name ∈ trace ↔
      name ∈ op0.map Prod.fst ∧ truthy (jsLookup np name) = false ∧
      startsWithOn name = false ∧ name ≠ "style") := by
  unfold updateProps at h
  simp only [] at h
  split at h
  · cases h
  next a2 e2 s2 ops2 happ =>
    cases h
    constructor
    · intro hv ht hon hsty hcls op hop
      rcases List.mem_append.mp hop with hop | hop
      · rcases List.mem_append.mp hop with hop | hop
        · rcases List.mem_append.mp hop with hop | hop
          · -- ref callback
            split at hop
            · simp only [List.mem_singleton] at hop
              subst hop
              simp [attrOpName]
            · cases hop
          · -- listener removals
            rw [removeOldListeners_attrOpName np op0 path _ _ op hop]
            simp
        · -- new-prop application
          exact applyNewProps_attr_skip np op0 path hv hon hsty hcls _ _ _ _ _ _ _ _ happ op hop
      · -- stale attribute removal
        obtain ⟨m, rfl, hm, hmt, hmo, hms⟩ := removeStaleAttrs_ops_shape np path _ _ op hop
        simp only [attrOpName, ne_eq, Option.some.injEq]
        intro hmn
        subst hmn
        rw [ht] at hmt
        cases hmt
    · constructor
      · intro hmem
        rcases List.mem_append.mp hmem with hop | hop
        · rcases List.mem_append.mp hop with hop | hop
          · rcases List.mem_append.mp hop with hop | hop
            · split at hop
              · simp only [List.mem_singleton] at hop
                cases hop
              · cases hop
            · have := removeOldListeners_attrOpName np op0 path _ _ _ hop
              simp [attrOpName] at this
          · have := applyNewProps_no_removeAttr np op0 path _ _ _ _ _ _ _ _ happ _ hop
            simp [isRemoveAttrOp] at this
        · obtain ⟨m, hopq, hm, hmt, hmo, hms⟩ := removeStaleAttrs_ops_shape np path _ _ _ hop
          have hmn : m = name := by
            have := hopq
            injection this with h1 h2
            exact h2.symm
          subst hmn
          exact ⟨hm, hmt, hmo, hms⟩
      · rintro ⟨hm, hmt, hmo, hms⟩
        apply List.mem_append.mpr
        right
        exact removeStaleAttrs_mem_of np path hmt hmo hms _ _ hm


theorem domkit_c8_attr_semantics_witness :
    updateProps
        (some (HNode.elem "div" [("id", JSVal.vStr "x"), ("gone", JSVal.vStr "y")] [] [] []))
        [("id", JSVal.vStr "x")] [("id", JSVal.vStr "x"), ("gone", JSVal.vStr "y")] [] =
      .ok (some (HNode.elem "div" [("id", JSVal.vStr "x")] [] [] []),
           [HostOp.removeAttr [] "gone"]) ∧
    HostOp.removeAttr [] "gone" ∈ [HostOp.removeAttr [] "gone"] ∧
    (∀ op ∈ [HostOp.removeAttr [] "gone"], attrOpName op ≠ some "id") := by
  have h : updateProps
      (some (HNode.elem "div" [("id", JSVal.vStr "x"), ("gone", JSVal.vStr "y")] [] [] []))
      [("id", JSVal.vStr "x")] [("id", JSVal.vStr "x"), ("gone", JSVal.vStr "y")] [] =
      .ok (some (HNode.elem "div" [("id", JSVal.vStr "x")] [] [] []),
           [HostOp.removeAttr [] "gone"]) := by rfl
  refine ⟨h, ?_, ?_⟩
  · exact (domkit_c8_attr_semantics "div"
      [("id", JSVal.vStr "x"), ("gone", JSVal.vStr "y")] [] [] []
      [("id", JSVal.vStr "x")] [("id", JSVal.vStr "x"), ("gone", JSVal.vStr "y")] []
      "gone" _ _ h).2.mpr ⟨by simp, rfl, rfl, by decide⟩
  · exact (domkit_c8_attr_semantics "div"
      [("id", JSVal.vStr "x"), ("gone", JSVal.vStr "y")] [] [] []
      [("id", JSVal.vStr "x")] [("id", JSVal.vStr "x"), ("gone", JSVal.vStr "y")] []
      "id" _ _ h).1 rfl rfl rfl (by decide) (by decide)

/-- C8 (counterexample): a prop (`id`) present in both old and new
props with the equal falsy value `0` is nevertheless removed by the
final loop of `updateProps` — the removal condition is value falsiness
(`!newProps[name]`), not absence from `newProps`, so the claim's
"removed only when absent from newProps" and "equal falsy values cause
no host write" are both false. -/
theorem domkit_c8_counterexample :
    updateProps (some (HNode.elem "div" [("id", JSVal.vNum 0)] [] [] []))
        [("id", JSVal.vNum 0)] [("id", JSVal.vNum 0)] [] =
      .ok (some (HNode.elem "div" [] [] [] []), [HostOp.removeAttr [] "id"]) := rfl

/-! ## Claim C9 — unregistered component resolution -/

/-- C9: `loadComponent(name)` for a name that is neither cached, nor in
flight, nor registered rejects with the "not registered" error and
leaves the loader state (cache, registry, loading map) unchanged. -/
theorem domkit_c9_unregistered_rejects (name : String) (L : Loader)
    (hc : List.lookup name L.componentCache = none)
    (hl : L.loadingComponents.contains name = false)
    (hr : List.lookup name L.componentRegistry = none) :
    loadComponent name L =
      (.rejected ("Component \"" ++ name ++ "\" is not registered."), L) := by
  unfold loadComponent
  rw [hc, hr]
  have hl2 : name ∉ L.loadingComponents := by simpa using hl
  simp [hl2]

theorem domkit_c9_unregistered_rejects_witness :
    List.lookup "Foo" (Loader.mk [] [] []).componentCache = none ∧
    (Loader.mk [] [] []).loadingComponents.contains "Foo" = false ∧
    List.lookup "Foo" (Loader.mk [] [] []).componentRegistry = none ∧
    loadComponent "Foo" (Loader.mk [] [] []) =
      (.rejected "Component \"Foo\" is not registered.", Loader.mk [] [] []) :=
  ⟨rfl, rfl, rfl, domkit_c9_unregistered_rejects "Foo" (Loader.mk [] [] []) rfl rfl rfl⟩

/-! ## Claim C10 — getComponent cache semantics -/

/-- C10: `getComponent(name)` throws synchronously exactly when the
name is not in the component cache, returns the cached renderer when it
is, and never modifies the loader state (in particular it never
triggers a load). -/
theorem domkit_c10_getComponent (name : String) (L : Loader) :
    (getComponent name L).2 = L ∧
    (List.lookup name L.componentCache = none →
      (getComponent name L).1 =
        .error ("Component \"" ++ name ++ "\" is not loaded. Call loadComponent() first.")) ∧
    (∀ c, List.lookup name L.componentCache = some c → (getComponent name L).1 = .ok c) := by
  unfold getComponent isComponentLoaded
  cases h : List.lookup name L.componentCache <;> simp [h]

theorem domkit_c10_getComponent_witness :
    (getComponent "Foo" (Loader.mk [("Foo", 3)] [] [])).1 = .ok 3 ∧
    (getComponent "Bar" (Loader.mk [("Foo", 3)] [] [])).1 =
      .error "Component \"Bar\" is not loaded. Call loadComponent() first." ∧
    (getComponent "Bar" (Loader.mk [("Foo", 3)] [] [])).2 = Loader.mk [("Foo", 3)] [] [] :=
  ⟨(domkit_c10_getComponent "Foo" (Loader.mk [("Foo", 3)] [] [])).2.2 3 rfl,
   (domkit_c10_getComponent "Bar" (Loader.mk [("Foo", 3)] [] [])).2.1 rfl,
   (domkit_c10_getComponent "Bar" (Loader.mk [("Foo", 3)] [] [])).1⟩

end DomKit
